import Mathlib

/-!
# Verification of the flight-data evaluation core

Shallow embedding of the analysis pipeline of the flight-data evaluation
tool: the structurer's coordinate remap (`structure_data`), the phase
detector (`calculate_approach_phases` with its backup pass), the
evaluation engine's edge-run reconciliation
(`start_stop_condition_evaluation`) and schema-gated metric dispatch
(`calculate_phase_evaluation_values`), and the grading engine's tier
assignment (`tier_data`).  Numeric log values (floats in the source) are
modelled as rationals; a raised `IndexError` is modelled as `none`.
-/

/-- One sample of the structured flight series.  Only the columns read by
the verified components are modelled; every field is a rational stand-in
for the float column of the same name.  Fields default to `0` so concrete
test rows can name only the columns that matter. -/
structure Row where
  simTime : ℚ := 0
  thcX : ℚ := 0
  thcY : ℚ := 0
  thcZ : ℚ := 0
  rhcX : ℚ := 0
  rhcY : ℚ := 0
  rhcZ : ℚ := 0
  cogVelX : ℚ := 0
  cogPosX : ℚ := 0
  portPosX : ℚ := 0
deriving DecidableEq, Repr

/-- The DataFrame holding the flight series: its rows plus the
`Shifted_SimTime` helper column that `start_stop_condition_evaluation`
may add in place (`none` while that column is absent). -/
structure Frame where
  rows : List Row
  shiftedSimTime : Option (List (Option ℚ)) := none
deriving DecidableEq, Repr

/-- Pair every row with its successor, the way a `shift(-1)` column sits
next to the original; the last row is paired with `none`, matching the
NaN a trailing shift produces. -/
def zipNext : List Row → List (Row × Option Row)
  | [] => []
  | [r] => [(r, none)]
  | r :: r' :: rs => (r, some r') :: zipNext (r' :: rs)

/-- `SimTime` of each row's successor, `none` for the last row
(`flight_data["SimTime"].shift(-1)`). -/
def nextSimTimes (rows : List Row) : List (Option ℚ) :=
  (zipNext rows).map (fun p => p.2.map Row.simTime)

/-- Python `int(...)` truncation toward zero of `a / b` for an integer
numerator, as in the backup-phase index arithmetic
(`int((stop_index - start_index) * 1 / 3)`). -/
def truncDiv (a : ℤ) (b : ℕ) : ℤ :=
  if 0 ≤ a then ((a.toNat / b : ℕ) : ℤ) else -(((-a).toNat / b : ℕ) : ℤ)

/-- `DataFrame.iloc[i]` on the row list: nonnegative indices count from
the front, negative ones from the back, and an out-of-range index is a
raised `IndexError`, modelled as `none`. -/
def pyIloc (rows : List Row) (i : ℤ) : Option Row :=
  let j : ℤ := if i < 0 then (rows.length : ℤ) + i else i
  if 0 ≤ j then rows[j.toNat]? else none

/-- Position of the first row carrying the given `SimTime`
(`data_frame[data_frame["SimTime"] == t].index[0]` on the default
range index), `none` when no row matches. -/
def simTimeIdx (rows : List Row) (t : ℚ) : Option ℕ :=
  rows.findIdx? (fun r => decide (r.simTime = t))

/-- Coordinate remap of `structure_data` (datastructuring.py lines
216-218): the `THC.x`/`THC.z` and `RHC.x`/`RHC.z` labels are swapped by
the rename, and afterwards only the two new THC columns are negated. -/
def structure_data_remap (r : Row) : Row :=
  { r with
    thcX := -r.thcZ
    thcZ := -r.thcX
    rhcX := r.rhcZ
    rhcZ := r.rhcX }

/-- Any of the six controller axes nonzero
(`data_frame[["THC.x","THC.y","THC.z","RHC.x","RHC.y","RHC.z"]].any(axis=1)`). -/
def anyControllerInput (r : Row) : Bool :=
  decide (r.thcX ≠ 0) || decide (r.thcY ≠ 0) || decide (r.thcZ ≠ 0) ||
  decide (r.rhcX ≠ 0) || decide (r.rhcY ≠ 0) || decide (r.rhcZ ≠ 0)

/-- The closing-velocity threshold -0.1 of the approach rule, written as
the reduced fraction -1/10 in constructor form so that kernel reduction
can evaluate comparisons against it. -/
def negPointOne : ℚ := ⟨-1, 10, by decide, by decide⟩

/-- Row predicate of the Alignment→Approach rule (datastructuring.py
lines 52-58): `COG Vel.x` at most -0.1, strictly greater than the next
sample's value (`current > current.shift(-1)`, the closing velocity still
growing toward the station), and strictly after the alignment start.  A
missing successor behaves like the NaN comparison in pandas: false. -/
def approachPred (alignT : ℚ) (r : Row) (nxt : Option Row) : Bool :=
  decide (r.cogVelX ≤ negPointOne) &&
    (match nxt with
      | some n => decide (n.cogVelX < r.cogVelX)
      | none => false) &&
  decide (alignT < r.simTime)

/-- Alignment→Approach slot: first qualifying timestamp, `none` when no
row qualifies (the slot is left unresolved for the backup pass). -/
def approachStartSlot (rows : List Row) (alignT : ℚ) : Option ℚ :=
  ((zipNext rows).find? (fun p => approachPred alignT p.1 p.2)).map (fun p => p.1.simTime)

/-- The same slot as the specification words it: the current `COG Vel.x`
is required to be LESS than the next sample's value.  Declared only to
compare the specification's sentence against `approachStartSlot`. -/
def approachStartSlotSpec (rows : List Row) (alignT : ℚ) : Option ℚ :=
  ((zipNext rows).find? (fun p =>
    decide (p.1.cogVelX ≤ negPointOne) &&
      (match p.2 with
        | some n => decide (p.1.cogVelX < n.cogVelX)
        | none => false) &&
    decide (alignT < p.1.simTime))).map (fun p => p.1.simTime)

/-- Approach→Final-Approach slot (datastructuring.py line 65): first row
with `COG Pos.x < 20`. -/
def finalApproachSlot (rows : List Row) : Option ℚ :=
  (rows.find? (fun r => decide (r.cogPosX < 20))).map Row.simTime

/-- Backup pass `_calculate_backup_approach_phases` (datastructuring.py
lines 82-131).  Only the two middle slots can be unresolved: two
consecutive unresolved slots are placed at the 1/3 and 2/3 index points
between their resolved neighbours, a single one at the index midpoint;
when both slots are resolved the list passes through unchanged (the
Python caller then skips the backup entirely, with the same result).
`none` models an uncaught lookup/indexing error. -/
def calculate_backup_approach_phases
    (rows : List Row) (p0 : ℚ) (op1 op2 : Option ℚ) (p3 : ℚ) : Option (List ℚ) :=
  match op1, op2 with
  | none, none => do
      let i ← simTimeIdx rows p0
      let j ← simTimeIdx rows p3
      let r1 ← pyIloc rows ((i : ℤ) + truncDiv ((j : ℤ) - (i : ℤ)) 3)
      let r2 ← pyIloc rows ((i : ℤ) + truncDiv (((j : ℤ) - (i : ℤ)) * 2) 3)
      pure [p0, r1.simTime, r2.simTime, p3]
  | none, some p2 => do
      let i ← simTimeIdx rows p0
      let j ← simTimeIdx rows p2
      let r1 ← pyIloc rows ((i : ℤ) + truncDiv ((j : ℤ) - (i : ℤ)) 2)
      pure [p0, r1.simTime, p2, p3]
  | some p1, none => do
      let i ← simTimeIdx rows p1
      let j ← simTimeIdx rows p3
      let r2 ← pyIloc rows ((i : ℤ) + truncDiv ((j : ℤ) - (i : ℤ)) 2)
      pure [p0, p1, r2.simTime, p3]
  | some p1, some p2 => pure [p0, p1, p2, p3]

/-- Phase detector `calculate_approach_phases` (datastructuring.py lines
14-79): alignment start with first-`SimTime` fallback, the two middle
slots with `none` placeholders, docking time with last-`SimTime`
fallback, then the backup pass.  `none` models the uncaught `IndexError`
the Python raises on an empty frame. -/
def calculate_approach_phases (rows : List Row) : Option (List ℚ) :=
  match rows.head? with
  | none => none
  | some r0 =>
    let p0 : ℚ :=
      match rows.find? anyControllerInput with
      | some r => r.simTime
      | none => r0.simTime
    let p3 : ℚ :=
      match rows.find? (fun r => decide (r.portPosX = 0)) with
      | some r => r.simTime
      | none => ((rows.getLast?).getD r0).simTime
    calculate_backup_approach_phases rows p0
      (approachStartSlot rows p0) (finalApproachSlot rows) p3

/-- Timestamps of the rows a boolean mask selects
(`flight_data[cond]["SimTime"].to_list()`); the masks stand for the
window-clamped start/stop condition series computed by the caller. -/
def maskTimes (rows : List Row) (mask : List Bool) : List ℚ :=
  ((rows.zip mask).filter (fun p => p.2)).map (fun p => p.1.simTime)

/-- Fallback stop list (evaluation.py lines 78-80): the rows whose
`SimTime` is one of the start timestamps, each contributing its
successor's `SimTime` (`none` models the NaN of the last row). -/
def fallbackStops (rows : List Row) (starts : List ℚ) : List (Option ℚ) :=
  ((rows.zip (nextSimTimes rows)).filter
    (fun p => decide (p.1.simTime ∈ starts))).map (fun p => p.2)

/-- Output of `start_stop_condition_evaluation`: the two timestamp lists,
whether the mismatch diagnostic was printed, and the frame as left behind
by the call (possibly carrying the new `Shifted_SimTime` column). -/
structure SscResult where
  starts : List ℚ
  stops : List (Option ℚ)
  diagnostic : Bool
  frame : Frame
deriving DecidableEq, Repr

/-- `start_stop_condition_evaluation` (evaluation.py lines 35-82): gather
both timestamp lists; if there are fewer starts than stops, prepend the
window's boundary-start timestamp; if afterwards there are more starts
than stops, append the boundary-stop timestamp; if the lengths still
disagree, print a diagnostic, add the `Shifted_SimTime` column to the
frame and replace the stop list with each start's next-sample time. -/
def start_stop_condition_evaluation
    (f : Frame) (startMask stopMask : List Bool) (startT stopT : ℚ) : SscResult :=
  let starts0 := maskTimes f.rows startMask
  let stops0 := maskTimes f.rows stopMask
  let starts1 := if starts0.length < stops0.length then startT :: starts0 else starts0
  let stops1 := if stops0.length < starts1.length then stops0 ++ [stopT] else stops0
  if starts1.length = stops1.length then
    { starts := starts1, stops := stops1.map some, diagnostic := false, frame := f }
  else
    { starts := starts1
      stops := fallbackStops f.rows starts1
      diagnostic := true
      frame := { f with shiftedSimTime := some (nextSimTimes f.rows) } }

/-- Python truthiness of a string: nonempty strings are truthy.  The
CombJoy gating conditions of `calculate_phase_evaluation_values` test
f-strings and literals directly as booleans. -/
def pyTruthy (s : String) : Bool := decide (s ≠ "")

/-- A schema-gated write: the result column is produced only when its
name is declared (`if f"..." in results.columns`). -/
def gatedName (cols : List String) (n : String) : List String :=
  if n ∈ cols then [n] else []

/-- Controller-activation pair of writes (evaluation.py lines 280-322):
the loop body is skipped unless the dotted name
`{controller}.{coordinate}_{phase}` is declared; when it is, both the
count column and the average-time column are written. -/
def controllerUsageNames (cols : List String) (phase c a : String) : List String :=
  if (c ++ "." ++ a ++ "_" ++ phase) ∈ cols then
    [c ++ a ++ "_" ++ phase, c ++ a ++ "AvgTime_" ++ phase]
  else []

/-- Steering-error block for one controller/axis other than THC.x
(evaluation.py lines 489-529): the error count is written
unconditionally, the independent-axis count and the fuel-on-error sum
only when declared. -/
def errorNames (cols : List String) (phase c a : String) : List String :=
  [c ++ a ++ "Err_" ++ phase] ++ gatedName cols (c ++ a ++ "IndErr_" ++ phase) ++
    gatedName cols ("Fuel_on_Error_" ++ phase)

/-- Main combined-joystick block (evaluation.py line 532):
`if f"CombJoy_{phase}" and "CombJoyTime_{phase}" in results.columns` —
the left operand is a truthy f-string, so the gate only asks whether the
LITERAL column name `CombJoyTime_\x7bphase\x7d` (braces included, no
f-prefix in the source) is declared. -/
def combJoyMainNames (cols : List String) (phase : String) : List String :=
  if pyTruthy ("CombJoy_" ++ phase) &&
      decide (("CombJoyTime_\x7bphase\x7d" : String) ∈ cols) then
    ["CombJoy_" ++ phase, "CombJoyTime_" ++ phase]
  else []

/-- CombJoy yz block (evaluation.py line 575):
`if f"CombJoy{controller}yz_{phase}" or "CombJoy{controller}yzTime_{phase}" not in results.columns: continue` —
the left operand of `or` is a truthy f-string, so the loop body is
always skipped. -/
def combJoyYzNames (cols : List String) (phase c : String) : List String :=
  if pyTruthy ("CombJoy" ++ c ++ "yz_" ++ phase) ||
      decide (("CombJoy\x7bcontroller\x7dyzTime_\x7bphase\x7d" : String) ∉ cols) then
    []
  else
    ["CombJoy" ++ c ++ "yz_" ++ phase, "CombJoy" ++ c ++ "yzTime_" ++ phase]

/-- CombJoy xyz block (evaluation.py line 614), with the same
always-truthy `or` as the yz block: the loop body is always skipped. -/
def combJoyXyzNames (cols : List String) (phase c : String) : List String :=
  if pyTruthy ("CombJoy" ++ c ++ "xyz_" ++ phase) ||
      decide (("CombJoy\x7bcontroller\x7dxyzTime_\x7bphase\x7d" : String) ∉ cols) then
    []
  else
    ["CombJoy" ++ c ++ "xyz_" ++ phase, "CombJoy" ++ c ++ "xyzTime_" ++ phase]

/-- PSD columns (evaluation.py lines 654-667), written unconditionally
for all six controller axes. -/
def psdNames (phase : String) : List String :=
  ["THCxPSD_" ++ phase, "THCyPSD_" ++ phase, "THCzPSD_" ++ phase,
   "RHCxPSD_" ++ phase, "RHCyPSD_" ++ phase, "RHCzPSD_" ++ phase]

/-- Average/RMS columns (evaluation.py lines 669-690), each gated on its
own name. -/
def avgRmsNames (cols : List String) (phase : String) : List String :=
  (["LatOff", "ApprVel", "LatVel", "Roll", "Yaw", "Pitch",
    "RollRate", "YawRate", "PitchRate"].flatMap
    (fun rn => gatedName cols (rn ++ "Avg_" ++ phase) ++ gatedName cols (rn ++ "Rms_" ++ phase)))

/-- The result columns one `calculate_phase_evaluation_values` call
(evaluation.py lines 123-692) writes for the given declared schema
columns, in program order.  `NoVisTime`, `THCxErr`, the per-axis error
counts and the PSD columns carry no schema gate in the source. -/
def computedNames (cols : List String) (phase : String) : List String :=
  gatedName cols ("Start_" ++ phase) ++
  gatedName cols ("Duration_" ++ phase) ++
  gatedName cols ("OutOfCone_" ++ phase) ++
  gatedName cols ("AboveClosingVel_" ++ phase) ++
  gatedName cols ("Fuel_" ++ phase) ++
  gatedName cols ("LatOffsetAtStart_" ++ phase) ++
  ["NoVisTime_" ++ phase] ++
  controllerUsageNames cols phase "THC" "x" ++
  controllerUsageNames cols phase "THC" "y" ++
  controllerUsageNames cols phase "THC" "z" ++
  controllerUsageNames cols phase "RHC" "x" ++
  controllerUsageNames cols phase "RHC" "y" ++
  controllerUsageNames cols phase "RHC" "z" ++
  ["THCxErr_" ++ phase] ++
  gatedName cols ("THCxIndErr_" ++ phase) ++
  errorNames cols phase "RHC" "x" ++
  errorNames cols phase "THC" "y" ++
  errorNames cols phase "RHC" "y" ++
  errorNames cols phase "THC" "z" ++
  errorNames cols phase "RHC" "z" ++
  combJoyMainNames cols phase ++
  combJoyYzNames cols phase "THC" ++
  combJoyYzNames cols phase "RHC" ++
  combJoyXyzNames cols phase "THC" ++
  combJoyXyzNames cols phase "RHC" ++
  psdNames phase ++
  avgRmsNames cols phase

/-- The six performance buckets of the Grading Engine. -/
inductive Tier where
  | excellent
  | good
  | normal
  | poor
  | veryPoor
  | notTierable
deriving DecidableEq, Repr

/-- Bucketing of a comparison value against the four tier borders
(grading.py lines 389-398). -/
def bucketValue (v : ℚ) (b : List ℚ) : Tier :=
  if v ≤ b.getD 0 0 then .excellent
  else if v ≤ b.getD 1 0 then .good
  else if v ≤ b.getD 2 0 then .normal
  else if v ≤ b.getD 3 0 then .poor
  else .veryPoor

/-- `[metric.mean() + i * metric.std() for i in [-2, -1, 1, 2]]`
(grading.py lines 351 and 363), parameterised by the mean/std
statistics. -/
def meanStdBorders (m s : ℚ) : List ℚ :=
  [m + (-2) * s, m + (-1) * s, m + 1 * s, m + 2 * s]

/-- The zero-clamped borders of grading.py line 352:
`[0 if border < 0 else border for border in tier_borders]`. -/
def clampedBorders (m s : ℚ) : List ℚ :=
  (meanStdBorders m s).map (fun b => if b < 0 then 0 else b)

/-- Inputs of the normal-distribution branch of `tier_data` for one
metric (grading.py lines 349-366): the test flight's raw value, the
mean/std statistics of the outlier-trimmed reference column, and — when
`tier_metric` retained a transformer — the transformed comparison value
together with the transformed column's mean/std. -/
structure NormalTierInput where
  rawValue : ℚ
  mean : ℚ := 0
  std : ℚ := 0
  transformed : Option (ℚ × ℚ × ℚ) := none
deriving DecidableEq, Repr

/-- Normal-branch tier assignment (grading.py lines 349-366 followed by
the bucketing of lines 389-398): borders are the zero-clamped
`mean + k·std`; a raw value of exactly 0 short-circuits to Excellent
before the transformer is consulted; a retained transformer replaces
both the comparison value and the borders with transformed-space ones,
which are not re-clamped in the source. -/
def tierNormalMetric (c : NormalTierInput) : Tier :=
  if c.rawValue = 0 then .excellent
  else
    match c.transformed with
    | none => bucketValue c.rawValue (clampedBorders c.mean c.std)
    | some (tv, tm, ts) => bucketValue tv (meanStdBorders tm ts)

/-- The optional-column gate of `tier_data` (grading.py lines 340-341):
optional metrics land in Not Tierable before any tiering happens. -/
def tierMetricRecord (isOptional : Bool) (c : NormalTierInput) : Tier :=
  if isOptional then .notTierable else tierNormalMetric c

/-- `metric.sort_values(ignore_index=True)` on the reference column:
ascending sort with positions relabelled `0..n-1`. -/
def sortVals (l : List ℚ) : List ℚ := l.insertionSort (· ≤ ·)

/-- Index label of the last sorted entry at most `v`
(`sorted_metric[sorted_metric <= current_value].index[-1]`), `none` when
no entry qualifies (the Python `IndexError`). -/
def lastLeIdx (s : List ℚ) (v : ℚ) : Option ℕ :=
  (((s.enum).filter (fun p => decide (p.2 ≤ v))).getLast?).map (fun p => p.1)

/-- Percentile rank of the non-normal branch of `tier_data` (grading.py
lines 369-374): last matching index over the sorted column divided by
the column length, `0` on an empty match. -/
def tierPercentile (metric : List ℚ) (v : ℚ) : ℚ :=
  let s := sortVals metric
  match lastLeIdx s v with
  | some i => (i : ℚ) / (s.length : ℚ)
  | none => 0

/-- The percentile rank as the specification words it: the number of
reference values at most the test value, divided by the number of
reference values.  Declared only to compare the specification's sentence
against `tierPercentile`. -/
def specPercentileRank (metric : List ℚ) (v : ℚ) : ℚ :=
  ((metric.countP (fun x => decide (x ≤ v)) : ℕ) : ℚ) / ((metric.length : ℕ) : ℚ)

/-- Three-row sample series: no controller input, closing velocity
below the -0.1 threshold while numerically increasing toward zero. -/
def sampleRows : List Row :=
  [{ simTime := 0 },
   { simTime := 1, cogVelX := -2 },
   { simTime := 2, cogVelX := -1 }]

/-- Sample frame around `sampleRows`, with no helper column. -/
def sampleFrame : Frame := { rows := sampleRows }

/-- Three-row sample series whose closing velocity keeps decreasing
(-2 then -3), so the detector's approach rule fires at t = 1. -/
def fallingRows : List Row :=
  [{ simTime := 0 },
   { simTime := 1, cogVelX := -2 },
   { simTime := 2, cogVelX := -3 }]

/-- A row whose only nonzero controller deflection is `RHC.z`. -/
def rhcOnlyRow : Row := { rhcZ := 1 }

/-- Normal-branch grading input with a retained transformer: raw value 5
against reference mean 10/std 2, transformed comparison value -1
against transformed mean 0/std 1. -/
def transformedTierInput : NormalTierInput :=
  { rawValue := 5, mean := 10, std := 2, transformed := some (-1, 0, 1) }

/-- Normal-branch grading input with raw value exactly 0 and a retained
transformer whose transformed comparison value is far above every
border. -/
def zeroValueTierInput : NormalTierInput :=
  { rawValue := 0, mean := -5, std := 1, transformed := some (99, 3, 1) }

/-- A schema declaring every combined-joystick column of the Align
phase. -/
def combJoySchema : List String :=
  ["CombJoy_Align", "CombJoyTime_Align",
   "CombJoyTHCyz_Align", "CombJoyTHCyzTime_Align",
   "CombJoyRHCyz_Align", "CombJoyRHCyzTime_Align",
   "CombJoyTHCxyz_Align", "CombJoyTHCxyzTime_Align",
   "CombJoyRHCxyz_Align", "CombJoyRHCxyzTime_Align"]

/-- C4 counterexample: after the remap the new `RHC.x` value equals the
OLD `RHC.z` value itself, not its negation — the source negates only the
two THC columns, so the claimed "analogously for RHC" equations fail on
a row with `RHC.z = 1`. -/
theorem c4_remap_counterexample :
    ¬ ((structure_data_remap rhcOnlyRow).rhcX = -rhcOnlyRow.rhcZ ∧
       (structure_data_remap rhcOnlyRow).rhcZ = -rhcOnlyRow.rhcX) := by
  decide

/-- C4 amended: for every input row the remap satisfies
`THC.x_new = -THC.z_old`, `THC.z_new = -THC.x_old`, while for RHC the
axes are swapped WITHOUT negation: `RHC.x_new = RHC.z_old` and
`RHC.z_new = RHC.x_old` (the other controller axes are untouched). -/
theorem c4_remap_amended (r : Row) :
    (structure_data_remap r).thcX = -r.thcZ ∧
    (structure_data_remap r).thcZ = -r.thcX ∧
    (structure_data_remap r).rhcX = r.rhcZ ∧
    (structure_data_remap r).rhcZ = r.rhcX ∧
    (structure_data_remap r).thcY = r.thcY ∧
    (structure_data_remap r).rhcY = r.rhcY :=
  ⟨rfl, rfl, rfl, rfl, rfl, rfl⟩

/-- C10: in the normal-distribution branch a non-optional metric whose
raw test value is exactly 0 is tiered Excellent before the borders or
any retained transformer are consulted. -/
theorem c10_zero_fast_path (c : NormalTierInput) (h : c.rawValue = 0) :
    tierMetricRecord false c = Tier.excellent := by
  simp [tierMetricRecord, tierNormalMetric, h]

/-- C10 witness: concrete input with hostile borders and a transformed
comparison value far above every border still grades Excellent. -/
theorem c10_zero_fast_path_witness :
    tierMetricRecord false zeroValueTierInput = Tier.excellent :=
  c10_zero_fast_path zeroValueTierInput rfl

/-- C6 counterexample: with a retained transformer the source buckets
the transformed value against UNCLAMPED transformed-space borders; the
claim's zero-clamped borders would give Excellent where the code gives
Good, and the border list actually used contains the negative entry
-2. -/
theorem c6_borders_counterexample :
    tierNormalMetric transformedTierInput = Tier.good ∧
    bucketValue (-1) (clampedBorders 0 1) = Tier.excellent ∧
    (-2 : ℚ) ∈ meanStdBorders 0 1 ∧ (-2 : ℚ) < 0 := by
  refine ⟨?_, ?_, ?_, by norm_num⟩
  · norm_num [tierNormalMetric, transformedTierInput, bucketValue, meanStdBorders, List.getD]
  · norm_num [bucketValue, clampedBorders, meanStdBorders, List.getD]
  · norm_num [meanStdBorders]

/-- C6 amended: without a retained transformer the borders used for
bucketing are the zero-clamped `mean + k·std` (all nonnegative); with a
retained transformer and a nonzero raw value, the comparison value and
the borders are recomputed in transformed space and are NOT re-clamped
at zero. -/
theorem c6_borders_amended (c : NormalTierInput) :
    (∀ b ∈ clampedBorders c.mean c.std, 0 ≤ b) ∧
    (c.rawValue ≠ 0 → c.transformed = none →
      tierNormalMetric c = bucketValue c.rawValue (clampedBorders c.mean c.std)) ∧
    (∀ tv tm ts, c.rawValue ≠ 0 → c.transformed = some (tv, tm, ts) →
      tierNormalMetric c = bucketValue tv (meanStdBorders tm ts)) := by
  refine ⟨?_, ?_, ?_⟩
  · intro b hb
    simp only [clampedBorders, List.mem_map] at hb
    obtain ⟨x, _, rfl⟩ := hb
    split
    · exact le_refl 0
    · next h => exact le_of_not_lt h
  · intro h0 ht
    simp [tierNormalMetric, h0, ht]
  · intro tv tm ts h0 ht
    simp [tierNormalMetric, h0, ht]

/-- C6 witness for the amended statement at the concrete transformed
input: the nonnegativity of the clamped borders and the transformed
bucketing both instantiate. -/
theorem c6_borders_amended_witness :
    (∀ b ∈ clampedBorders (10 : ℚ) 2, 0 ≤ b) ∧
    tierNormalMetric transformedTierInput = bucketValue (-1) (meanStdBorders 0 1) :=
  ⟨(c6_borders_amended transformedTierInput).1,
   (c6_borders_amended transformedTierInput).2.2 (-1) 0 1 (by decide) rfl⟩

/-- C5 counterexample: for reference column `[1, 2]` and test value 2
the source reports percentile 1/2 (last matching index over length),
while the claimed fraction of reference values at most the test value is
1. -/
theorem c5_percentile_counterexample :
    tierPercentile [1, 2] 2 = 1/2 ∧ specPercentileRank [1, 2] 2 = 1 ∧
    ((1 : ℚ)/2) ≠ 1 := by
  refine ⟨?_, ?_, by norm_num⟩
  · norm_num [tierPercentile, sortVals, lastLeIdx, List.insertionSort, List.orderedInsert,
      List.enum, List.enumFrom, List.filter, List.getLast?]
  · norm_num [specPercentileRank, List.countP, List.countP.go]

/-- C7 counterexample: an evaluation-engine call on a frame whose
stop-condition fires twice with no start leaves the frame CHANGED — the
reconciliation fallback adds the `Shifted_SimTime` column to the flight
series in place. -/
theorem c7_frame_counterexample :
    (start_stop_condition_evaluation sampleFrame
      [false, false, false] [true, true, false] 0 9).frame ≠ sampleFrame := by
  decide

/-- C7 amended: an evaluation call never adds, removes or modifies any
row or existing column of the series; the only possible in-place change
is adding the `Shifted_SimTime` helper column (holding each row's
successor `SimTime`) when the reconciliation fallback fires. -/
theorem c7_frame_amended (f : Frame) (sm tm : List Bool) (a b : ℚ) :
    (start_stop_condition_evaluation f sm tm a b).frame.rows = f.rows ∧
    ((start_stop_condition_evaluation f sm tm a b).frame.shiftedSimTime = f.shiftedSimTime ∨
     (start_stop_condition_evaluation f sm tm a b).frame.shiftedSimTime =
       some (nextSimTimes f.rows)) := by
  simp only [start_stop_condition_evaluation]
  split <;> split <;> split <;>
    first
      | exact ⟨rfl, Or.inl rfl⟩
      | exact ⟨rfl, Or.inr rfl⟩

/-- C2: with every combined-joystick column of the Align phase declared
in the schema, the engine still computes none of them: the yz/xyz gates
`if f"..." or "..." not in results.columns: continue` are always truthy,
and the main block is gated on the literal column name
`CombJoyTime_\x7bphase\x7d`, which the schema does not contain. -/
theorem c2_combjoy_skipped :
    "CombJoy_Align" ∉ computedNames combJoySchema "Align" ∧
    "CombJoyTime_Align" ∉ computedNames combJoySchema "Align" ∧
    "CombJoyTHCyz_Align" ∉ computedNames combJoySchema "Align" ∧
    "CombJoyTHCyzTime_Align" ∉ computedNames combJoySchema "Align" ∧
    "CombJoyTHCxyz_Align" ∉ computedNames combJoySchema "Align" ∧
    "CombJoyRHCxyz_Align" ∉ computedNames combJoySchema "Align" := by
  decide

/-- C1 counterexample: with an EMPTY declared schema the engine still
computes `NoVisTime_Align`, `THCxErr_Align` and `THCxPSD_Align` — the
sparse-computation contract does not hold for these metrics. -/
theorem c1_gating_counterexample :
    "NoVisTime_Align" ∈ computedNames [] "Align" ∧
    "NoVisTime_Align" ∉ ([] : List String) ∧
    "THCxErr_Align" ∈ computedNames [] "Align" ∧
    "THCxPSD_Align" ∈ computedNames [] "Align" := by
  decide

/-- C8 counterexample: on an empty series phase detection fails (the
Python raises an uncaught `IndexError` in the alignment-start fallback,
modelled as `none`) instead of returning 4 boundaries. -/
theorem c8_empty_counterexample :
    calculate_approach_phases ([] : List Row) = none :=
  rfl

/-- C3 counterexample: on `sampleRows` (velocity -1/5 then -1/10, so the
current value is LESS than the next sample's) the claimed predicate
fires at t=1, but the source requires the current value to be GREATER
than the next sample's and leaves the slot unresolved. -/
theorem c3_direction_counterexample :
    approachStartSlot sampleRows 0 = none ∧
    approachStartSlotSpec sampleRows 0 = some 1 := by
  decide

/-- C9: edge-run reconciliation of `start_stop_condition_evaluation`.
With `starts`/`stops` the timestamp lists gathered inside the window:
fewer starts than stops prepends exactly the window's boundary-start
timestamp; more starts than stops appends exactly the boundary-stop
timestamp; when the single-element correction balances the lengths the
corrected lists are returned without diagnostic; when the lengths still
disagree the stop list is replaced by each start's next-sample timestamp
and the diagnostic is surfaced. -/
theorem c9_reconciliation (f : Frame) (sm tm : List Bool) (startT stopT : ℚ)
    (starts stops : List ℚ)
    (hs : starts = maskTimes f.rows sm) (ht : stops = maskTimes f.rows tm) :
    (starts.length < stops.length →
      (start_stop_condition_evaluation f sm tm startT stopT).starts = startT :: starts) ∧
    (starts.length + 1 = stops.length →
      (start_stop_condition_evaluation f sm tm startT stopT).stops = stops.map some ∧
      (start_stop_condition_evaluation f sm tm startT stopT).diagnostic = false) ∧
    (stops.length + 1 = starts.length →
      (start_stop_condition_evaluation f sm tm startT stopT).starts = starts ∧
      (start_stop_condition_evaluation f sm tm startT stopT).stops =
        (stops ++ [stopT]).map some ∧
      (start_stop_condition_evaluation f sm tm startT stopT).diagnostic = false) ∧
    (starts.length + 2 ≤ stops.length ∨ stops.length + 2 ≤ starts.length →
      (start_stop_condition_evaluation f sm tm startT stopT).stops =
        fallbackStops f.rows ((start_stop_condition_evaluation f sm tm startT stopT).starts) ∧
      (start_stop_condition_evaluation f sm tm startT stopT).diagnostic = true) ∧
    (starts.length = stops.length →
      start_stop_condition_evaluation f sm tm startT stopT =
        ⟨starts, stops.map some, false, f⟩) := by
  subst hs
  subst ht
  have e1 : (startT :: maskTimes f.rows sm).length = (maskTimes f.rows sm).length + 1 :=
    List.length_cons _ _
  have e2 : (maskTimes f.rows tm ++ [stopT]).length = (maskTimes f.rows tm).length + 1 := by
    simp
  refine ⟨?_, ?_, ?_, ?_, ?_⟩ <;> intro h <;>
    simp only [start_stop_condition_evaluation] <;>
    repeat' split
  all_goals
    first
      | rfl
      | omega
      | exact ⟨rfl, rfl⟩
      | exact ⟨rfl, rfl, rfl⟩

/-- C9 witness: a window with one rising and one falling edge passes
through the balanced branch untouched. -/
theorem c9_reconciliation_witness :
    start_stop_condition_evaluation sampleFrame [true, false, false] [false, true, false] 0 9 =
      ⟨[0], [some 1], false, sampleFrame⟩ :=
  (c9_reconciliation sampleFrame [true, false, false] [false, true, false] 0 9
    [0] [1] (by decide) (by decide)).2.2.2.2 (by decide)

/-- Helper: on a `≤`-sorted list, filtering the enumerated list by
`value ≤ v` is the enumeration of the filtered list — the matching
entries form a prefix, so their original positions are preserved. -/
theorem filter_enumFrom_sorted (s : List ℚ) (v : ℚ) (hs : List.Sorted (· ≤ ·) s) :
    ∀ n : ℕ, (s.enumFrom n).filter (fun p => decide (p.2 ≤ v)) =
      (s.filter (fun x => decide (x ≤ v))).enumFrom n := by
  induction s with
  | nil => intro n; simp
  | cons a t ih =>
    intro n
    rw [List.sorted_cons] at hs
    obtain ⟨ha, ht⟩ := hs
    by_cases hav : a ≤ v
    · simp only [List.enumFrom_cons, List.filter_cons, decide_eq_true_eq]
      rw [if_pos hav, if_pos hav, List.enumFrom_cons]
      rw [ih ht (n + 1)]
    · have hall : ∀ x ∈ t, ¬(x ≤ v) := fun x hx hxv => hav (le_trans (ha x hx) hxv)
      simp only [List.enumFrom_cons, List.filter_cons, decide_eq_true_eq]
      rw [if_neg hav, if_neg hav]
      have hl : t.filter (fun x => decide (x ≤ v)) = [] :=
        List.filter_eq_nil_iff.mpr (by simpa using hall)
      have hr : (t.enumFrom (n + 1)).filter (fun p => decide (p.2 ≤ v)) = [] := by
        rw [ih ht (n + 1), hl]
        rfl
      rw [hr, hl]
      rfl

/-- Helper: the index of the last entry of an enumeration starting at
`n` is `n + length - 1`. -/
theorem getLast?_enumFrom (l : List ℚ) :
    ∀ n : ℕ, ((l.enumFrom n).getLast?).map (fun p => p.1) =
      if l.length = 0 then none else some (n + l.length - 1) := by
  induction l with
  | nil => intro n; simp
  | cons a t ih =>
    intro n
    cases t with
    | nil => simp
    | cons b t' =>
      rw [List.enumFrom_cons, List.enumFrom_cons, List.getLast?_cons_cons,
        ← List.enumFrom_cons, ih (n + 1)]
      simp only [List.length_cons]
      rw [if_neg (by omega), if_neg (by omega)]
      congr 1
      omega

/-- Helper: on a sorted reference column the last index with value at
most `v` is `count - 1`, where `count` is the number of such values. -/
theorem lastLeIdx_sorted (s : List ℚ) (v : ℚ) (hs : List.Sorted (· ≤ ·) s) :
    lastLeIdx s v =
      if s.countP (fun x => decide (x ≤ v)) = 0 then none
      else some (s.countP (fun x => decide (x ≤ v)) - 1) := by
  unfold lastLeIdx
  rw [show s.enum = s.enumFrom 0 from rfl, filter_enumFrom_sorted s v hs 0,
    getLast?_enumFrom, List.countP_eq_length_filter]
  simp only [Nat.zero_add]

/-- C5 amended: the reported percentile rank is `(k - 1) / n` where `k`
is the number of reference values at most the test value and `n` the
reference size — one step below the claimed `k / n` — and `0` when
`k = 0`. -/
theorem c5_percentile_amended (metric : List ℚ) (v : ℚ) :
    tierPercentile metric v =
      if metric.countP (fun x => decide (x ≤ v)) = 0 then 0
      else (((metric.countP (fun x => decide (x ≤ v)) : ℕ) : ℚ) - 1) / ((metric.length : ℕ) : ℚ) := by
  have hsorted : List.Sorted (· ≤ ·) (sortVals metric) := List.sorted_insertionSort _ _
  have hperm : (sortVals metric).Perm metric := List.perm_insertionSort _ _
  have hcnt : (sortVals metric).countP (fun x => decide (x ≤ v)) =
      metric.countP (fun x => decide (x ≤ v)) := hperm.countP_eq _
  have hlen : (sortVals metric).length = metric.length := hperm.length_eq
  by_cases hk : metric.countP (fun x => decide (x ≤ v)) = 0
  · have hnone : lastLeIdx (sortVals metric) v = none := by
      rw [lastLeIdx_sorted _ _ hsorted, hcnt]
      exact if_pos hk
    simp [tierPercentile, hnone, hk]
  · have hsome : lastLeIdx (sortVals metric) v =
        some (metric.countP (fun x => decide (x ≤ v)) - 1) := by
      rw [lastLeIdx_sorted _ _ hsorted, hcnt]
      exact if_neg hk
    have h1 : 1 ≤ metric.countP (fun x => decide (x ≤ v)) := Nat.one_le_iff_ne_zero.mpr hk
    simp only [tierPercentile, hsome, hk, if_false, hlen]
    rw [Nat.cast_sub h1]
    norm_num

/-- Helper: `find?` returns `some a` exactly when `a` sits at some index
whose predecessors all fail the predicate. -/
theorem find?_eq_some_iff_idx {α : Type} (p : α → Bool) (l : List α) (a : α) :
    l.find? p = some a ↔
      ∃ i : ℕ, l[i]? = some a ∧ p a = true ∧
        ∀ j : ℕ, j < i → ∀ b, l[j]? = some b → p b = false := by
  induction l with
  | nil => simp
  | cons x xs ih =>
    by_cases hx : p x
    · rw [List.find?_cons_of_pos _ hx]
      constructor
      · intro he
        injection he with he
        subst he
        exact ⟨0, by simp, hx, fun j hj => absurd hj (Nat.not_lt_zero j)⟩
      · rintro ⟨i, hi, hpa, hmin⟩
        cases i with
        | zero =>
          simp only [List.getElem?_cons_zero, Option.some_inj] at hi
          rw [hi]
        | succ n =>
          have hfalse := hmin 0 (Nat.succ_pos n) x (by simp)
          rw [hx] at hfalse
          cases hfalse
    · have hx' : p x = false := by simpa using hx
      rw [List.find?_cons_of_neg _ hx, ih]
      constructor
      · rintro ⟨i, hi, hpa, hmin⟩
        refine ⟨i + 1, by simpa using hi, hpa, ?_⟩
        intro j hj b hb
        cases j with
        | zero =>
          simp only [List.getElem?_cons_zero, Option.some_inj] at hb
          rw [← hb]
          exact hx'
        | succ m =>
          exact hmin m (by omega) b (by simpa using hb)
      · rintro ⟨i, hi, hpa, hmin⟩
        cases i with
        | zero =>
          simp only [List.getElem?_cons_zero, Option.some_inj] at hi
          subst hi
          exact absurd hpa (by simpa using hx')
        | succ n =>
          refine ⟨n, by simpa using hi, hpa, ?_⟩
          intro j hj b hb
          exact hmin (j + 1) (by omega) b (by simpa using hb)

/-- Helper: the `i`-th entry of `zipNext` pairs the `i`-th row with the
`(i+1)`-th lookup. -/
theorem zipNext_getElem? (rows : List Row) :
    ∀ i : ℕ, (zipNext rows)[i]? = (rows[i]?).map (fun r => (r, rows[i + 1]?)) := by
  induction rows with
  | nil => intro i; simp [zipNext]
  | cons r rest ih =>
    intro i
    cases rest with
    | nil =>
      cases i with
      | zero => simp [zipNext]
      | succ n => simp [zipNext]
    | cons r2 rs =>
      cases i with
      | zero => simp [zipNext]
      | succ n =>
        have h := ih n
        show ((r, some r2) :: zipNext (r2 :: rs))[n + 1]? = _
        simp only [List.getElem?_cons_succ] at h ⊢
        exact h

/-- Helper: membership in `zipNext` projects to membership of the first
component. -/
theorem zipNext_fst_mem {rows : List Row} {p : Row × Option Row}
    (h : p ∈ zipNext rows) : p.1 ∈ rows := by
  induction rows with
  | nil => simp [zipNext] at h
  | cons r rest ih =>
    cases rest with
    | nil =>
      simp only [zipNext, List.mem_singleton] at h
      rw [h]
      exact List.mem_singleton_self r
    | cons r2 rs =>
      rw [show zipNext (r :: r2 :: rs) = (r, some r2) :: zipNext (r2 :: rs) from rfl] at h
      rcases List.mem_cons.mp h with he | hm
      · rw [he]
        exact List.mem_cons_self r _
      · exact List.mem_cons_of_mem r (ih hm)

/-- Helper: the Boolean approach predicate unfolded to its arithmetic
content. -/
theorem approachPred_iff (alignT : ℚ) (r : Row) (nxt : Option Row) :
    approachPred alignT r nxt = true ↔
      (r.cogVelX ≤ negPointOne ∧ (∃ n, nxt = some n ∧ n.cogVelX < r.cogVelX) ∧
        alignT < r.simTime) := by
  unfold approachPred
  cases nxt <;> simp [and_assoc]

/-- C3 amended: the Alignment→Approach slot returns `u` exactly when `u`
is the timestamp of the FIRST row strictly after the alignment start
whose `COG Vel.x` is at most -0.1 and strictly GREATER than the next
sample's value; no such row leaves the slot unresolved. -/
theorem c3_approach_amended (rows : List Row) (alignT u : ℚ) :
    approachStartSlot rows alignT = some u ↔
      ∃ i r, rows[i]? = some r ∧ r.simTime = u ∧
        (r.cogVelX ≤ negPointOne ∧
          (∃ r', rows[i + 1]? = some r' ∧ r'.cogVelX < r.cogVelX) ∧
          alignT < r.simTime) ∧
        ∀ j, j < i → ∀ s, rows[j]? = some s →
          ¬(s.cogVelX ≤ negPointOne ∧
            (∃ s', rows[j + 1]? = some s' ∧ s'.cogVelX < s.cogVelX) ∧
            alignT < s.simTime) := by
  unfold approachStartSlot
  rw [Option.map_eq_some']
  constructor
  · rintro ⟨p, hp, hu⟩
    rw [find?_eq_some_iff_idx] at hp
    obtain ⟨i, hi, hpa, hmin⟩ := hp
    rw [zipNext_getElem?] at hi
    rcases hr : rows[i]? with _ | r
    · rw [hr] at hi
      cases hi
    · rw [hr] at hi
      simp only [Option.map_some', Option.some_inj] at hi
      subst hi
      refine ⟨i, r, hr, hu, (approachPred_iff alignT r _).mp hpa, ?_⟩
      intro j hj s hsj hcontra
      have hb := hmin j hj (s, rows[j + 1]?)
        (by rw [zipNext_getElem?, hsj]; rfl)
      have := (approachPred_iff alignT s (rows[j + 1]?)).mpr hcontra
      rw [hb] at this
      cases this
  · rintro ⟨i, r, hr, hu, hprops, hmin⟩
    refine ⟨(r, rows[i + 1]?), ?_, hu⟩
    rw [find?_eq_some_iff_idx]
    refine ⟨i, by rw [zipNext_getElem?, hr]; rfl,
      (approachPred_iff alignT r _).mpr hprops, ?_⟩
    intro j hj b hb
    rw [zipNext_getElem?] at hb
    rcases hs : rows[j]? with _ | s
    · rw [hs] at hb
      cases hb
    · rw [hs] at hb
      simp only [Option.map_some', Option.some_inj] at hb
      subst hb
      cases hcase : approachPred alignT s (rows[j + 1]?) with
      | false => rfl
      | true => exact absurd ((approachPred_iff alignT s _).mp hcase) (hmin j hj s hs)

/-- C3 witness: instantiating the amended characterization on
`fallingRows` places the approach start at t = 1. -/
theorem c3_approach_amended_witness :
    approachStartSlot fallingRows 0 = some 1 :=
  (c3_approach_amended fallingRows 0 1).mpr
    ⟨1, { simTime := 1, cogVelX := -2 }, by decide, rfl,
      ⟨by decide, ⟨{ simTime := 2, cogVelX := -3 }, by decide, by decide⟩, by decide⟩,
      by
        intro j hj s hsj
        have hj0 : j = 0 := by omega
        subst hj0
        have hs : some ({ simTime := 0 } : Row) = some s := by
          rw [← hsj]
          decide
        injection hs with hs
        subst hs
        rintro ⟨h1, -, -⟩
        revert h1
        decide⟩

/-- Helper: `findIdx?` always succeeds, within bounds, when some element
satisfies the predicate. -/
theorem findIdx?_isSome_spec {α : Type} (p : α → Bool) (l : List α) :
    ∀ n : ℕ, (∃ x ∈ l, p x) →
      ∃ i : ℕ, List.findIdx? p l n = some i ∧ i < n + l.length := by
  induction l with
  | nil =>
    intro n h
    simp at h
  | cons a t ih =>
    intro n h
    rw [List.findIdx?_cons]
    by_cases hp : p a
    · rw [if_pos hp]
      exact ⟨n, rfl, by simp only [List.length_cons]; omega⟩
    · rw [if_neg hp]
      have h' : ∃ x ∈ t, p x := by
        rcases h with ⟨x, hx, hpx⟩
        rcases List.mem_cons.mp hx with rfl | hx'
        · exact absurd hpx hp
        · exact ⟨x, hx', hpx⟩
      obtain ⟨i, hi, hlt⟩ := ih (n + 1) h'
      exact ⟨i, hi, by simp only [List.length_cons]; omega⟩

/-- Helper: a timestamp present in the series always has a first index,
below the length. -/
theorem simTimeIdx_spec (rows : List Row) (t : ℚ)
    (h : ∃ r ∈ rows, r.simTime = t) :
    ∃ i : ℕ, simTimeIdx rows t = some i ∧ i < rows.length := by
  obtain ⟨r, hr, hrt⟩ := h
  have := findIdx?_isSome_spec (fun r => decide (r.simTime = t)) rows 0
    ⟨r, hr, decide_eq_true hrt⟩
  simpa [simTimeIdx] using this

/-- Helper: `iloc` succeeds on any in-range nonnegative index. -/
theorem pyIloc_spec (rows : List Row) (k : ℤ) (h0 : 0 ≤ k)
    (h1 : k < (rows.length : ℤ)) : ∃ r, pyIloc rows k = some r := by
  simp only [pyIloc]
  rw [if_neg (show ¬ k < 0 by omega), if_pos h0]
  have hk : k.toNat < rows.length := by omega
  exact ⟨rows[k.toNat], List.getElem?_eq_getElem hk⟩

/-- Helper: truncated-toward-zero thirds stay between 0 and the
numerator. -/
theorem truncDiv3_bounds (d : ℤ) :
    min 0 d ≤ truncDiv d 3 ∧ truncDiv d 3 ≤ max 0 d := by
  unfold truncDiv
  split <;> constructor <;> omega

/-- Helper: truncated-toward-zero halves stay between 0 and the
numerator. -/
theorem truncDiv2_bounds (d : ℤ) :
    min 0 d ≤ truncDiv d 2 ∧ truncDiv d 2 ≤ max 0 d := by
  unfold truncDiv
  split <;> constructor <;> omega

/-- Helper: truncated-toward-zero two-thirds stay between 0 and the
numerator. -/
theorem truncDiv_mul2_bounds (d : ℤ) :
    min 0 d ≤ truncDiv (d * 2) 3 ∧ truncDiv (d * 2) 3 ≤ max 0 d := by
  unfold truncDiv
  split <;> constructor <;> omega

/-- Helper: the backup pass always yields four boundaries when the two
resolved outer slots and any resolved middle slots are timestamps of the
series. -/
theorem backup_total (rows : List Row) (p0 : ℚ) (op1 op2 : Option ℚ) (p3 : ℚ)
    (h0 : ∃ r ∈ rows, r.simTime = p0)
    (h3 : ∃ r ∈ rows, r.simTime = p3)
    (h1 : ∀ t, op1 = some t → ∃ r ∈ rows, r.simTime = t)
    (h2 : ∀ t, op2 = some t → ∃ r ∈ rows, r.simTime = t) :
    ∃ a b c d, calculate_backup_approach_phases rows p0 op1 op2 p3 = some [a, b, c, d] := by
  cases op1 with
  | some p1 =>
    cases op2 with
    | some p2 => exact ⟨p0, p1, p2, p3, rfl⟩
    | none =>
      obtain ⟨i, hi, hilt⟩ := simTimeIdx_spec rows p1 (h1 p1 rfl)
      obtain ⟨j, hj, hjlt⟩ := simTimeIdx_spec rows p3 h3
      have hb := truncDiv2_bounds ((j : ℤ) - (i : ℤ))
      obtain ⟨r2, hr2⟩ := pyIloc_spec rows ((i : ℤ) + truncDiv ((j : ℤ) - (i : ℤ)) 2)
        (by omega) (by omega)
      exact ⟨p0, p1, r2.simTime, p3, by
        simp [calculate_backup_approach_phases, hi, hj, hr2]⟩
  | none =>
    cases op2 with
    | some p2 =>
      obtain ⟨i, hi, hilt⟩ := simTimeIdx_spec rows p0 h0
      obtain ⟨j, hj, hjlt⟩ := simTimeIdx_spec rows p2 (h2 p2 rfl)
      have hb := truncDiv2_bounds ((j : ℤ) - (i : ℤ))
      obtain ⟨r1, hr1⟩ := pyIloc_spec rows ((i : ℤ) + truncDiv ((j : ℤ) - (i : ℤ)) 2)
        (by omega) (by omega)
      exact ⟨p0, r1.simTime, p2, p3, by
        simp [calculate_backup_approach_phases, hi, hj, hr1]⟩
    | none =>
      obtain ⟨i, hi, hilt⟩ := simTimeIdx_spec rows p0 h0
      obtain ⟨j, hj, hjlt⟩ := simTimeIdx_spec rows p3 h3
      have hb1 := truncDiv3_bounds ((j : ℤ) - (i : ℤ))
      have hb2 := truncDiv_mul2_bounds ((j : ℤ) - (i : ℤ))
      obtain ⟨r1, hr1⟩ := pyIloc_spec rows ((i : ℤ) + truncDiv ((j : ℤ) - (i : ℤ)) 3)
        (by omega) (by omega)
      obtain ⟨r2, hr2⟩ := pyIloc_spec rows ((i : ℤ) + truncDiv (((j : ℤ) - (i : ℤ)) * 2) 3)
        (by omega) (by omega)
      exact ⟨p0, r1.simTime, r2.simTime, p3, by
        simp [calculate_backup_approach_phases, hi, hj, hr1, hr2]⟩

/-- C8 amended: on any NONEMPTY series the phase detector succeeds and
returns exactly four boundaries. -/
theorem c8_phases_amended (rows : List Row) (h : rows ≠ []) :
    ∃ a b c d, calculate_approach_phases rows = some [a, b, c, d] := by
  cases rows with
  | nil => exact absurd rfl h
  | cons r0 rest =>
    simp only [calculate_approach_phases, List.head?_cons]
    apply backup_total
    · cases hf : (r0 :: rest).find? anyControllerInput with
      | some r =>
        simp only [hf]
        exact ⟨r, List.mem_of_find?_eq_some hf, rfl⟩
      | none =>
        simp only [hf]
        exact ⟨r0, List.mem_cons_self r0 rest, rfl⟩
    · cases hf : (r0 :: rest).find? (fun r => decide (r.portPosX = 0)) with
      | some r =>
        simp only [hf]
        exact ⟨r, List.mem_of_find?_eq_some hf, rfl⟩
      | none =>
        simp only [hf]
        have hne : (r0 :: rest) ≠ [] := List.cons_ne_nil r0 rest
        rw [List.getLast?_eq_getLast _ hne]
        exact ⟨(r0 :: rest).getLast hne, List.getLast_mem hne, rfl⟩
    · intro t ht
      obtain ⟨p, hp, hu⟩ := Option.map_eq_some'.mp ht
      exact ⟨p.1, zipNext_fst_mem (List.mem_of_find?_eq_some hp), hu⟩
    · intro t ht
      obtain ⟨r, hr, hu⟩ := Option.map_eq_some'.mp ht
      exact ⟨r, List.mem_of_find?_eq_some hr, hu⟩

/-- C8 witness: a one-row series yields four (equal) boundaries. -/
theorem c8_phases_amended_witness :
    ∃ a b c d, calculate_approach_phases [({ simTime := 7 } : Row)] = some [a, b, c, d] :=
  c8_phases_amended [{ simTime := 7 }] (by simp)

/-- Helper: membership in a conditional list splits on the condition. -/
theorem mem_ite_list {c : Prop} [Decidable c] {l1 l2 : List String} {m : String} :
    m ∈ (if c then l1 else l2) ↔ (c ∧ m ∈ l1) ∨ (¬c ∧ m ∈ l2) := by
  split <;> simp_all

set_option maxHeartbeats 4000000 in
/-- C1 amended: for the four phases the engine is called with, the
schema-gated families (here Start, OutOfCone and LatOffAvg as
representatives) are computed exactly when declared, while
`NoVisTime_{phase}`, `THCxErr_{phase}` and the PSD columns are computed
even under an empty schema, and the CombJoy yz/xyz variants are computed
under no schema at all. -/
theorem c1_gating_amended (cols : List String) (phase : String)
    (hphase : phase = "Align" ∨ phase = "Appr" ∨ phase = "FA" ∨ phase = "Total") :
    (("NoVisTime_" ++ phase) ∈ computedNames cols phase) ∧
    (("THCxErr_" ++ phase) ∈ computedNames cols phase) ∧
    (("THCxPSD_" ++ phase) ∈ computedNames cols phase) ∧
    (("CombJoyTHCyz_" ++ phase) ∉ computedNames cols phase) ∧
    (("CombJoyRHCxyz_" ++ phase) ∉ computedNames cols phase) ∧
    (("Start_" ++ phase) ∈ computedNames cols phase ↔ ("Start_" ++ phase) ∈ cols) ∧
    (("OutOfCone_" ++ phase) ∈ computedNames cols phase ↔ ("OutOfCone_" ++ phase) ∈ cols) ∧
    (("LatOffAvg_" ++ phase) ∈ computedNames cols phase ↔ ("LatOffAvg_" ++ phase) ∈ cols) := by
  rcases hphase with rfl | rfl | rfl | rfl <;>
    refine ⟨?_, ?_, ?_, ?_, ?_, ?_, ?_, ?_⟩ <;>
      simp [computedNames, gatedName, controllerUsageNames, errorNames,
        combJoyMainNames, combJoyYzNames, combJoyXyzNames, psdNames, avgRmsNames,
        pyTruthy, mem_ite_list]

/-- C1 witness for the amended statement: under the one-column schema
`["Start_Align"]` both the unconditional `NoVisTime_Align` and the
declared `Start_Align` are computed. -/
theorem c1_gating_amended_witness :
    ("NoVisTime_Align" ∈ computedNames ["Start_Align"] "Align") ∧
    ("Start_Align" ∈ computedNames ["Start_Align"] "Align") :=
  ⟨(c1_gating_amended ["Start_Align"] "Align" (Or.inl rfl)).1,
   ((c1_gating_amended ["Start_Align"] "Align" (Or.inl rfl)).2.2.2.2.2.1).mpr
     (by decide)⟩
